import Mathlib

set_option maxHeartbeats 1000000
set_option maxRecDepth 2000

namespace AdGen

/-! Shallow embedding of src/weekly_ad_generator.py.

The script is a single-run pipeline: for each configured `AdProject` it
generates ad copy (Gemini, `generate_ad_copy`), an image (`generate_image`),
uploads the image to Google Drive (`DriveManager.save_image`, with a local
dry-run fallback), and finally stores one aggregate JSON log
(`DriveManager.save_log`).  External backends (Gemini, the image model, the
Drive API) are modeled by their observable input/output behavior; the
orchestration, branching and serialization logic is translated line by line. -/

/-- Kinds of Python runtime errors raised on the modeled code paths:
a bare `Exception(msg)`, `KeyError` from a dict subscript, `IndexError`
from `candidates[0]`, `TypeError` from subscripting a non-dict, and
`json.JSONDecodeError` from `json.loads`. -/
inductive PyErr where
  | exception (msg : String)
  | keyError (key : String)
  | indexError
  | typeError
  | jsonDecodeError
  deriving DecidableEq, Repr

/-! ## JSON documents

`json.loads` / `json.dumps` as used by the script (`generate_ad_copy`
parses the backend reply; `save_log` serializes the run log with
`indent=2, ensure_ascii=False`).  Numeric literals never occur in the
modeled flows and are omitted from the document type. -/

/-- JSON documents: null, booleans, strings, arrays and objects. -/
inductive Json where
  | null
  | bool (b : Bool)
  | str (s : String)
  | arr (elems : List Json)
  | obj (members : List (String × Json))
  deriving Repr

/-- The double-quote character. -/
def quoteChar : Char := '\x22'

/-- The backslash character. -/
def backslashChar : Char := '\\'

/-- The opening-brace character. -/
def lbraceChar : Char := '\x7b'

/-- The closing-brace character. -/
def rbraceChar : Char := '\x7d'

mutual

/-- Structural size of a JSON document, used as parser fuel bound. -/
def sizeJ : Json → Nat
  | .null => 1
  | .bool _ => 1
  | .str _ => 1
  | .arr xs => 1 + sizeL xs
  | .obj kvs => 1 + sizeKV kvs

def sizeL : List Json → Nat
  | [] => 1
  | x :: xs => 1 + sizeJ x + sizeL xs

def sizeKV : List (String × Json) → Nat
  | [] => 1
  | kv :: kvs => 1 + sizeJ kv.2 + sizeKV kvs

end

/-- Escaping of a single character, as performed by `json.dumps` with
`ensure_ascii=False`: only the two JSON metacharacters, the five named
control escapes and the remaining C0 control characters are escaped;
every character from U+0020 upwards (all non-Latin text included) is
emitted verbatim. -/
def escChar (c : Char) : List Char :=
  if c = quoteChar then [backslashChar, quoteChar]
  else if c = backslashChar then [backslashChar, backslashChar]
  else if c = '\x08' then [backslashChar, 'b']
  else if c = '\x0c' then [backslashChar, 'f']
  else if c = '\n' then [backslashChar, 'n']
  else if c = '\x0d' then [backslashChar, 'r']
  else if c = '\t' then [backslashChar, 't']
  else if c.toNat < 32 then
    [backslashChar, 'u', '0', '0', Nat.digitChar (c.toNat / 16), Nat.digitChar (c.toNat % 16)]
  else [c]

/-- Escaped body of a JSON string literal. -/
def escStr (s : String) : List Char := (s.data.map escChar).flatten

/-- A complete JSON string literal with its surrounding quotes. -/
def qstr (s : String) : List Char := quoteChar :: (escStr s ++ [quoteChar])

/-- Indentation emitted by `json.dumps(..., indent=2)` at nesting depth `d`. -/
def jind (d : Nat) : List Char := List.replicate (2 * d) ' '

mutual

/-- Serializer for `json.dumps(x, indent=2, ensure_ascii=False)`:
each array/object opens on its own line, members are indented two spaces
per nesting level, the item separator is a comma plus newline, and the key
separator is a colon plus one space. -/
def printJ : Nat → Json → List Char
  | _, .null => ['n', 'u', 'l', 'l']
  | _, .bool true => ['t', 'r', 'u', 'e']
  | _, .bool false => ['f', 'a', 'l', 's', 'e']
  | _, .str s => qstr s
  | _, .arr [] => ['[', ']']
  | d, .arr (x :: xs) =>
      '[' :: '\n' :: (jind (d + 1) ++ printJ (d + 1) x ++ printArrTail d xs)
  | _, .obj [] => [lbraceChar, rbraceChar]
  | d, .obj (kv :: kvs) =>
      lbraceChar :: '\n' ::
        (jind (d + 1) ++ qstr kv.1 ++ ':' :: ' ' :: printJ (d + 1) kv.2 ++ printObjTail d kvs)

def printArrTail : Nat → List Json → List Char
  | d, [] => '\n' :: (jind d ++ [']'])
  | d, x :: xs => ',' :: '\n' :: (jind (d + 1) ++ printJ (d + 1) x ++ printArrTail d xs)

def printObjTail : Nat → List (String × Json) → List Char
  | d, [] => '\n' :: (jind d ++ [rbraceChar])
  | d, kv :: kvs =>
      ',' :: '\n' ::
        (jind (d + 1) ++ qstr kv.1 ++ ':' :: ' ' :: printJ (d + 1) kv.2 ++ printObjTail d kvs)

end

/-- JSON whitespace characters. -/
def isWsChar (c : Char) : Bool := c = ' ' || c = '\n' || c = '\t' || c = '\x0d'

/-- Drop leading JSON whitespace. -/
def skipWs : List Char → List Char
  | [] => []
  | c :: cs => if isWsChar c then skipWs cs else c :: cs

/-- Value of a hexadecimal digit character, if any. -/
def fromHexDigit (c : Char) : Option Nat :=
  if '0' ≤ c ∧ c ≤ '9' then some (c.toNat - 48)
  else if 'a' ≤ c ∧ c ≤ 'f' then some (c.toNat - 87)
  else if 'A' ≤ c ∧ c ≤ 'F' then some (c.toNat - 55)
  else none

/-- The character denoted by a single-character JSON escape sequence. -/
def simpleEsc (c : Char) : Option Char :=
  if c = quoteChar then some quoteChar
  else if c = backslashChar then some backslashChar
  else if c = '/' then some '/'
  else if c = 'b' then some '\x08'
  else if c = 'f' then some '\x0c'
  else if c = 'n' then some '\n'
  else if c = 'r' then some '\x0d'
  else if c = 't' then some '\t'
  else none

/-- Parse the body of a JSON string literal (the opening quote already
consumed), returning the decoded characters and the input past the
closing quote. -/
def parseStrBody : List Char → Option (List Char × List Char)
  | [] => none
  | c :: cs =>
    if c = quoteChar then some ([], cs)
    else if c = backslashChar then
      match cs with
      | [] => none
      | e :: cs2 =>
        if e = 'u' then
          match cs2 with
          | h1 :: h2 :: h3 :: h4 :: cs3 =>
            match fromHexDigit h1, fromHexDigit h2, fromHexDigit h3, fromHexDigit h4 with
            | some a, some b, some c3, some d =>
              match parseStrBody cs3 with
              | some (l, r) => some (Char.ofNat (4096 * a + 256 * b + 16 * c3 + d) :: l, r)
              | none => none
            | _, _, _, _ => none
          | _ => none
        else
          match simpleEsc e with
          | some ch =>
            match parseStrBody cs2 with
            | some (l, r) => some (ch :: l, r)
            | none => none
          | none => none
    else
      match parseStrBody cs with
      | some (l, r) => some (c :: l, r)
      | none => none

mutual

/-- Recursive-descent JSON parser (fuel-indexed for termination). -/
def parseVal : Nat → List Char → Option (Json × List Char)
  | 0, _ => none
  | fuel + 1, cs =>
    match skipWs cs with
    | [] => none
    | c :: cs1 =>
      if c = quoteChar then
        match parseStrBody cs1 with
        | some (l, r) => some (.str (String.mk l), r)
        | none => none
      else if c = '[' then
        match skipWs cs1 with
        | [] => none
        | d :: r =>
          if d = ']' then some (.arr [], r)
          else
            match parseArrItems fuel (d :: r) with
            | some (xs, r2) => some (.arr xs, r2)
            | none => none
      else if c = lbraceChar then
        match skipWs cs1 with
        | [] => none
        | d :: r =>
          if d = rbraceChar then some (.obj [], r)
          else
            match parseObjItems fuel (d :: r) with
            | some (kvs, r2) => some (.obj kvs, r2)
            | none => none
      else if c = 'n' then
        match cs1 with
        | 'u' :: 'l' :: 'l' :: r => some (.null, r)
        | _ => none
      else if c = 't' then
        match cs1 with
        | 'r' :: 'u' :: 'e' :: r => some (.bool true, r)
        | _ => none
      else if c = 'f' then
        match cs1 with
        | 'a' :: 'l' :: 's' :: 'e' :: r => some (.bool false, r)
        | _ => none
      else none

def parseArrItems : Nat → List Char → Option (List Json × List Char)
  | 0, _ => none
  | fuel + 1, cs =>
    match parseVal fuel cs with
    | none => none
    | some (v, r) =>
      match skipWs r with
      | ',' :: r2 =>
        match parseArrItems fuel r2 with
        | some (vs, r3) => some (v :: vs, r3)
        | none => none
      | ']' :: r2 => some ([v], r2)
      | _ => none

def parseObjItems : Nat → List Char → Option (List (String × Json) × List Char)
  | 0, _ => none
  | fuel + 1, cs =>
    match skipWs cs with
    | [] => none
    | c :: cs1 =>
      if c = quoteChar then
        match parseStrBody cs1 with
        | some (k, r) =>
          match skipWs r with
          | ':' :: r2 =>
            match parseVal fuel r2 with
            | some (v, r3) =>
              match skipWs r3 with
              | ',' :: r4 =>
                match parseObjItems fuel r4 with
                | some (kvs, r5) => some ((String.mk k, v) :: kvs, r5)
                | none => none
              | d :: r4 => if d = rbraceChar then some ([(String.mk k, v)], r4) else none
              | [] => none
            | none => none
          | _ => none
        | none => none
      else none

end

/-- Model of `json.loads`: parse one document and require only trailing
whitespace afterwards. -/
def json_loads (s : String) : Option Json :=
  match parseVal (s.data.length + 1) s.data with
  | some (j, r) => if skipWs r = [] then some j else none
  | none => none

/-- Model of `json.dumps(x, indent=2, ensure_ascii=False)` (source line 141). -/
def json_dumps (j : Json) : String := String.mk (printJ 0 j)

/-! ## Data model -/

/-- Project Definition (`AdProject` dataclass, source lines 19-25). -/
structure AdProject where
  product_name : String
  target : String
  appeal : String
  color : String
  taste : String
  deriving DecidableEq, Repr

/-- A local wall-clock instant, as observed through the two `strftime`
calls of the script (`%Y-%m-%d` and `%Y%m%d_%H%M%S`).  Python's
`datetime` guarantees `1 <= year <= 9999`. -/
structure DateTime where
  year : Nat
  month : Nat
  day : Nat
  hour : Nat
  minute : Nat
  second : Nat
  deriving DecidableEq, Repr

/-- Two-digit zero-padded decimal field, as printed by `strftime` for
`%m`, `%d`, `%H`, `%M`, `%S` (all of which are at most 99). -/
def pad2 (n : Nat) : String :=
  String.mk [Nat.digitChar (n / 10 % 10), Nat.digitChar (n % 10)]

/-- Four-digit zero-padded decimal field, as printed by `strftime` for
`%Y` on the years `datetime` can represent. -/
def pad4 (n : Nat) : String :=
  String.mk [Nat.digitChar (n / 1000 % 10), Nat.digitChar (n / 100 % 10),
    Nat.digitChar (n / 10 % 10), Nat.digitChar (n % 10)]

/-- `datetime.datetime.now().strftime("%Y-%m-%d")` (source line 169). -/
def fmtYmd (t : DateTime) : String :=
  pad4 t.year ++ "-" ++ pad2 t.month ++ "-" ++ pad2 t.day

/-- The image artifact filename
`f"{project.product_name}_{today_str}.png"` (source line 182). -/
def image_filename (p : AdProject) (todayStr : String) : String :=
  p.product_name ++ "_" ++ todayStr ++ ".png"

/-- The log filename
`f"log_{datetime.datetime.now().strftime('%Y%m%d_%H%M%S')}.json"`
(source line 133). -/
def log_filename (t : DateTime) : String :=
  "log_" ++ (pad4 t.year ++ pad2 t.month ++ pad2 t.day ++ "_" ++
    pad2 t.hour ++ pad2 t.minute ++ pad2 t.second) ++ ".json"

/-- One Run Log Entry, the dict appended to `job_logs` (source lines
187-192): run date, product name, the full generated content and the
image filename. -/
structure LogEntry where
  date : String
  project : String
  content : Json
  filename : String
  deriving Repr

/-- The JSON object of one Run Log Entry, with the insertion order of the
dict literal at source lines 187-192. -/
def logEntryJson (e : LogEntry) : Json :=
  Json.obj [("date", Json.str e.date), ("project", Json.str e.project),
    ("content", e.content), ("filename", Json.str e.filename)]

/-- The serialized run log:
`json.dumps(log_data, indent=2, ensure_ascii=False)` applied to the list
of entry dicts (source line 141).  (The subsequent `.encode('utf-8')`
is injective on strings, so the model stays at the text level.) -/
def save_log_bytes (log_data : List LogEntry) : String :=
  json_dumps (Json.arr (log_data.map logEntryJson))

/-- Read a serialized run log back: parse as JSON, then read off the
{date, project, content, filename} tuples. -/
def decodeEntry : Json → Option LogEntry
  | Json.obj [("date", Json.str d), ("project", Json.str p),
      ("content", c), ("filename", Json.str f)] =>
      some { date := d, project := p, content := c, filename := f }
  | _ => none

/-- Decode a sequence of parsed entry objects. -/
def decodeEntries : List Json → Option (List LogEntry)
  | [] => some []
  | j :: js =>
    match decodeEntry j, decodeEntries js with
    | some e, some es => some (e :: es)
    | _, _ => none

/-- Decode a parsed run-log document into its entry sequence. -/
def decodeLogs : Json → Option (List LogEntry)
  | Json.arr js => decodeEntries js
  | _ => none

/-- Parse serialized run-log text back into its Run Log Entries. -/
def parse_log_entries (s : String) : Option (List LogEntry) :=
  (json_loads s).bind decodeLogs

/-! ## External backends

`GeminiClient.generate_ad_copy` and `NanobabanaClient.generate_image`
are modeled as functions of the backend's observable reply; the reply
itself is supplied by the environment. -/

/-- `GeminiClient.generate_ad_copy` (source lines 32-55): the method
returns `json.loads(response.text)` directly — the parsed document is
handed back with no validation of any field. -/
def generate_ad_copy (responseText : String) : Except PyErr Json :=
  match json_loads responseText with
  | some j => Except.ok j
  | none => Except.error PyErr.jsonDecodeError

/-- Inline binary payload of a response part (`part.inline_data.data`). -/
structure Blob where
  data : List Nat
  deriving DecidableEq, Repr

/-- One content part of the image model's response. -/
structure RespPart where
  inline_data : Option Blob
  deriving DecidableEq, Repr

/-- The `content` of a response candidate. -/
structure CandContent where
  parts : List RespPart
  deriving DecidableEq, Repr

/-- One response candidate. -/
structure Candidate where
  content : CandContent
  deriving DecidableEq, Repr

/-- The image model's response (`response.candidates[0].content.parts`). -/
structure GenResponse where
  candidates : List Candidate
  deriving DecidableEq, Repr

/-- The `for part in ...: if part.inline_data: return part.inline_data.data`
loop (source lines 70-72): first part whose `inline_data` is set.
(A present but empty blob is truthy in Python: `types.Blob` defines no
`__bool__`/`__len__`.) -/
def firstInlineData : List RespPart → Option Blob
  | [] => none
  | p :: ps =>
    match p.inline_data with
    | some b => some b
    | none => firstInlineData ps

/-- `NanobabanaClient.generate_image` (source lines 62-74), as a function
of the backend response: `candidates[0]` raises `IndexError` when empty;
the first part with inline data is returned verbatim; otherwise a bare
`Exception("画像が生成されませんでした。")` is raised. -/
def generate_image (response : GenResponse) : Except PyErr (List Nat) :=
  match response.candidates with
  | [] => Except.error PyErr.indexError
  | cand :: _ =>
    match firstInlineData cand.content.parts with
    | some b => Except.ok b.data
    | none => Except.error (PyErr.exception "画像が生成されませんでした。")

/-! ## DriveManager

`self.service` is `None` exactly when credential discovery at
construction failed (source lines 78-90); `hasService` models that flag.
Filesystem writes and Drive uploads are recorded as events. -/

/-- Observable events of one run: the two generator invocations, the two
storage invocations, local file writes and Drive uploads. -/
inductive Ev where
  | genCopyCall (productName : String)
  | genImageCall (prompt : Json)
  | saveImageCall (filename : String)
  | saveLogCall
  | localWrite (filename : String) (data : List Nat)
  | upload (name : String) (parent : Option String) (mimeType : String) (payload : List Nat)

/-- `DriveManager.get_weekly_folder_id` (source lines 92-100): without a
service the dedicated sentinel `"dry-run-folder-id"` is returned; with a
service the configured parent id is returned unchanged (no subfolder is
created). -/
def get_weekly_folder_id (hasService : Bool) (parent_id : Option String) : Option String :=
  if hasService = false then some "dry-run-folder-id"
  else parent_id

/-- UTF-8 bytes of a string (`str.encode('utf-8')`). -/
def strBytes (s : String) : List Nat := s.toUTF8.toList.map UInt8.toNat

/-- `DriveManager.save_image` (source lines 102-124).  Without a service:
a local file named `filename` is written (relative path, hence in the
current working directory) with exactly the payload bytes, but only when
`folder_id` equals the sentinel `"dry-run-folder-id"`; any other value
returns silently.  With a service: the bytes are uploaded under parent
`folder_id` with MIME type `image/png`; `uploadResult` is the outcome of
the Drive `files().create(...).execute()` call. -/
def save_image (hasService : Bool) (uploadResult : Option PyErr) (image_data : List Nat)
    (filename : String) (folder_id : Option String) : List Ev × Except PyErr Unit :=
  if hasService = false then
    (if folder_id = some "dry-run-folder-id" then [Ev.localWrite filename image_data] else [],
     Except.ok ())
  else
    ([Ev.upload filename folder_id "image/png" image_data],
     match uploadResult with
     | some e => Except.error e
     | none => Except.ok ())

/-- `DriveManager.save_log` (source lines 126-150).  Without a service the
method returns after a print — nothing is persisted locally or remotely.
With a service the entries are serialized (`indent=2, ensure_ascii=False`,
UTF-8) and uploaded as `log_{YYYYMMDD_HHMMSS}.json` with MIME type
`application/json`. -/
def save_log (hasService : Bool) (uploadResult : Option PyErr) (log_data : List LogEntry)
    (folder_id : Option String) (now : DateTime) : List Ev × Except PyErr Unit :=
  if hasService = false then ([], Except.ok ())
  else
    ([Ev.upload (log_filename now) folder_id "application/json"
        (strBytes (save_log_bytes log_data))],
     match uploadResult with
     | some e => Except.error e
     | none => Except.ok ())

/-! ## The orchestrator (`job`, source lines 152-196) -/

/-- Environment of one run: the backend replies, the Drive call outcomes
(keyed by uploaded filename), the credential state, the configured
`DRIVE_FOLDER_ID` and the wall clock. -/
structure JobEnv where
  geminiResponse : AdProject → String
  imageResponse : Json → GenResponse
  uploadResult : String → Option PyErr
  hasService : Bool
  drive_folder_id : Option String
  now : DateTime

/-- Python's `content['prompt']` dict subscript: `KeyError` when the key
is absent, `TypeError` when the document is not an object. -/
def lookupFirst : List (String × Json) → String → Option Json
  | [], _ => none
  | (k, v) :: kvs, key => if k = key then some v else lookupFirst kvs key

/-- Subscript access on a parsed JSON document. -/
def jsonGet (j : Json) (key : String) : Except PyErr Json :=
  match j with
  | Json.obj kvs =>
    match lookupFirst kvs key with
    | some v => Except.ok v
    | none => Except.error (PyErr.keyError key)
  | _ => Except.error PyErr.typeError

/-- The body of `job`'s per-project loop (source lines 174-192):
copy generation, `content['prompt']`, image generation, filename
construction, upload, and the log-entry dict.  The first raised error
aborts the step; the event list records what was invoked before that. -/
def runStep (env : JobEnv) (folder_id : Option String) (todayStr : String)
    (project : AdProject) : List Ev × Except PyErr LogEntry :=
  match generate_ad_copy (env.geminiResponse project) with
  | Except.error e => ([Ev.genCopyCall project.product_name], Except.error e)
  | Except.ok content =>
    match jsonGet content "prompt" with
    | Except.error e => ([Ev.genCopyCall project.product_name], Except.error e)
    | Except.ok promptJ =>
      match generate_image (env.imageResponse promptJ) with
      | Except.error e =>
        ([Ev.genCopyCall project.product_name, Ev.genImageCall promptJ], Except.error e)
      | Except.ok image_data =>
        match save_image env.hasService (env.uploadResult (image_filename project todayStr))
            image_data (image_filename project todayStr) folder_id with
        | (evs, Except.error e) =>
          (Ev.genCopyCall project.product_name :: Ev.genImageCall promptJ ::
            Ev.saveImageCall (image_filename project todayStr) :: evs, Except.error e)
        | (evs, Except.ok _) =>
          (Ev.genCopyCall project.product_name :: Ev.genImageCall promptJ ::
            Ev.saveImageCall (image_filename project todayStr) :: evs,
           Except.ok { date := todayStr, project := project.product_name,
                       content := content,
                       filename := image_filename project todayStr })

/-- The `for project in projects:` loop (source line 174): steps run in
sequence, the first error aborts the loop, successful entries are
accumulated in order. -/
def runLoop (env : JobEnv) (folder_id : Option String) (todayStr : String) :
    List AdProject → List Ev × Except PyErr (List LogEntry)
  | [] => ([], Except.ok [])
  | p :: ps =>
    match runStep env folder_id todayStr p with
    | (evs, Except.error e) => (evs, Except.error e)
    | (evs, Except.ok entry) =>
      match runLoop env folder_id todayStr ps with
      | (evs2, Except.error e) => (evs ++ evs2, Except.error e)
      | (evs2, Except.ok entries) => (evs ++ evs2, Except.ok (entry :: entries))

/-- One whole run of `job` over a given project sequence (source lines
152-196): resolve the folder once, run the per-project loop, then store
the aggregate log once at the very end. -/
def jobRun (env : JobEnv) (projects : List AdProject) : List Ev × Except PyErr Unit :=
  match runLoop env (get_weekly_folder_id env.hasService env.drive_folder_id)
      (fmtYmd env.now) projects with
  | (evs, Except.error e) => (evs, Except.error e)
  | (evs, Except.ok job_logs) =>
    match save_log env.hasService (env.uploadResult (log_filename env.now)) job_logs
        (get_weekly_folder_id env.hasService env.drive_folder_id) env.now with
    | (evs2, Except.error e) => (evs ++ Ev.saveLogCall :: evs2, Except.error e)
    | (evs2, Except.ok _) => (evs ++ Ev.saveLogCall :: evs2, Except.ok ())

/-- The hardcoded project list of `job` (source lines 155-163). -/
def weeklyProjects : List AdProject :=
  [{ product_name := "コラーゲンゼリー", target := "30代女性",
     appeal := "肌のハリ、乾燥対策", color := "淡いピンクと白",
     taste := "ナチュラル・清潔感" }]

/-- `job()` as invoked by `__main__` (source lines 198-199). -/
def job (env : JobEnv) : List Ev × Except PyErr Unit := jobRun env weeklyProjects

/-! ## Concrete test fixtures -/

/-- A minimal Project Definition used as concrete test input. -/
def testProject : AdProject :=
  { product_name := "TestProduct", target := "t", appeal := "a", color := "c", taste := "s" }

/-- An image-model response whose single part carries inline data with an
empty payload. -/
def respWithEmptyBlob : GenResponse :=
  { candidates := [{ content := { parts := [{ inline_data := some { data := [] } }] } }] }

/-- An image-model response whose single part carries no inline data. -/
def respWithoutBlob : GenResponse :=
  { candidates := [{ content := { parts := [{ inline_data := none }] } }] }

/-- A concrete timestamp. -/
def testNow : DateTime :=
  { year := 2026, month := 10, day := 12, hour := 9, minute := 5, second := 7 }

/-- Dry-run environment whose text backend replies with a document whose
`prompt` field is the empty string. -/
def envEmptyPrompt : JobEnv :=
  { geminiResponse := fun _ => "\x7b\"prompt\": \"\"\x7d",
    imageResponse := fun _ => respWithoutBlob,
    uploadResult := fun _ => none,
    hasService := false,
    drive_folder_id := none,
    now := testNow }

/-- Dry-run environment whose text backend replies with a document that
has no `prompt` field at all. -/
def envMissingPrompt : JobEnv :=
  { envEmptyPrompt with geminiResponse := fun _ => "\x7b\x7d" }

/-- Dry-run environment whose text backend replies with text that is not
JSON at all. -/
def envBadJson : JobEnv :=
  { envEmptyPrompt with geminiResponse := fun _ => "x" }

/-- Dry-run environment where copy generation succeeds but the image
backend returns no inline image data. -/
def envImgFail : JobEnv :=
  { envEmptyPrompt with geminiResponse := fun _ => "\x7b\"prompt\": \"p\"\x7d" }

/-- A concrete Run Log Entry with non-Latin text in every field. -/
def testEntry : LogEntry :=
  { date := "2026-10-12",
    project := "コラーゲンゼリー",
    content := Json.obj [("キャッチコピー", Json.str "ぷるぷる、続く。"),
      ("prompt", Json.str "studio photo")],
    filename := "コラーゲンゼリー_2026-10-12.png" }

/-! ## General lemmas -/

/-- `Nat.digitChar` of a reduced decimal digit is a digit character. -/
lemma digitChar_mod_isDigit (n : Nat) : (Nat.digitChar (n % 10)).isDigit = true := by
  have h : n % 10 < 10 := Nat.mod_lt _ (by omega)
  generalize hg : n % 10 = m at h ⊢
  interval_cases m <;> decide

/-! ## Claim theorems: storage manager and generators -/

/-- C4.  `get_weekly_folder_id` returns the dedicated fallback sentinel
whenever credential discovery failed at construction (`service = None`),
and returns the configured parent identifier unchanged otherwise.  The
embedding is a pure function of the credential state and the parent, so
with fixed credential state two calls trivially agree (determinism). -/
theorem get_weekly_folder_id_spec (parent : Option String) :
    get_weekly_folder_id false parent = some "dry-run-folder-id" ∧
    get_weekly_folder_id true parent = parent :=
  ⟨rfl, rfl⟩

/-- C5.  `save_image` in fallback mode (no credentials, hence the
sentinel location produced by `get_weekly_folder_id`) writes exactly the
payload bytes to a file named `filename` in the working directory; in
live mode it uploads the bytes with MIME type `image/png` under the given
parent — one call signature for both modes.  (Which branch runs is keyed
on the credential state; the sentinel comparison inside the dry-run
branch is covered by C10.) -/
theorem save_image_dual_mode (u : Option PyErr) (data : List Nat) (fn : String)
    (parent : Option String) :
    save_image false u data fn (some "dry-run-folder-id") =
      ([Ev.localWrite fn data], Except.ok ()) ∧
    (save_image true u data fn parent).1 = [Ev.upload fn parent "image/png" data] := by
  constructor
  · simp [save_image]
  · simp [save_image]

/-- C6.  `save_log` in fallback mode is a no-op for every entry sequence
and every location (the sentinel included): no local file, no upload, no
state change — only a print. -/
theorem save_log_dry_run_noop (u : Option PyErr) (logs : List LogEntry)
    (folder : Option String) (now : DateTime) :
    save_log false u logs folder now = ([], Except.ok ()) := by
  simp [save_log]

/-- C10.  With credential discovery failed, `save_image` writes a local
file only when the passed location equals the sentinel string
`"dry-run-folder-id"`; for any other location it returns silently with
no write, no upload and no error. -/
theorem save_image_dry_run_sentinel_keyed (u : Option PyErr) (data : List Nat) (fn : String)
    (folder : Option String) (h : folder ≠ some "dry-run-folder-id") :
    save_image false u data fn folder = ([], Except.ok ()) ∧
    save_image false u data fn (some "dry-run-folder-id") =
      ([Ev.localWrite fn data], Except.ok ()) := by
  constructor
  · simp [save_image, h]
  · simp [save_image]

/-- Witness for C10 at the concrete non-sentinel location `none`. -/
theorem save_image_dry_run_sentinel_keyed_witness :
    save_image false none [1] "f.png" none = ([], Except.ok ()) ∧
    save_image false none [1] "f.png" (some "dry-run-folder-id") =
      ([Ev.localWrite "f.png" [1]], Except.ok ()) :=
  save_image_dry_run_sentinel_keyed none [1] "f.png" none (by simp)

/-- C2 counterexample.  At the concrete response whose first part carries
inline data with an empty payload, `generate_image` returns empty bytes
as a success; and at the concrete response with no inline data it raises
a bare generic `Exception`, not a typed `ImageGenerationError` (no such
class exists anywhere in the script). -/
theorem generate_image_empty_bytes_untyped_error :
    generate_image respWithEmptyBlob = Except.ok [] ∧
    generate_image respWithoutBlob =
      Except.error (PyErr.exception "画像が生成されませんでした。") :=
  ⟨rfl, rfl⟩

/-- C2 amended.  `generate_image` returns the inline data of the first
part that has any (possibly empty) inline payload; when no part has
inline data it raises the generic `Exception("画像が生成されませんでした。")`;
when the response has no candidates, `candidates[0]` raises `IndexError`. -/
theorem generate_image_behavior (r : GenResponse) :
    (r.candidates = [] → generate_image r = Except.error PyErr.indexError) ∧
    (∀ c rest, r.candidates = c :: rest →
      (firstInlineData c.content.parts = none →
        generate_image r = Except.error (PyErr.exception "画像が生成されませんでした。")) ∧
      (∀ b, firstInlineData c.content.parts = some b →
        generate_image r = Except.ok b.data)) := by
  refine ⟨fun h => by simp [generate_image, h],
          fun c rest h => ⟨fun h2 => by simp [generate_image, h, h2],
                           fun b h2 => by simp [generate_image, h, h2]⟩⟩

/-- Witness for C2's amended theorem at the concrete no-inline-data
response. -/
theorem generate_image_behavior_witness :
    generate_image respWithoutBlob =
      Except.error (PyErr.exception "画像が生成されませんでした。") :=
  ((generate_image_behavior respWithoutBlob).2
    { content := { parts := [{ inline_data := none }] } } [] rfl).1 rfl

/-- C3 counterexample.  On the backend reply `"{}"` (no `prompt` field),
`generate_ad_copy` succeeds and returns the empty document — it does not
fail with any error; and a backend reply whose `prompt` field is the
empty string is passed downstream unvalidated: the image generator is
invoked with the empty prompt. -/
theorem generate_ad_copy_accepts_missing_prompt :
    generate_ad_copy "\x7b\x7d" = Except.ok (Json.obj []) ∧
    Ev.genImageCall (Json.str "") ∈
      (runStep envEmptyPrompt none "2026-10-12" testProject).1 := by
  constructor
  · rfl
  · have h : (runStep envEmptyPrompt none "2026-10-12" testProject).1 =
        [Ev.genCopyCall "TestProduct", Ev.genImageCall (Json.str "")] := rfl
    rw [h]; simp

/-- C3 amended.  `generate_ad_copy` returns whatever document the backend
reply parses to, with no validation of the `prompt` field (unparseable
text raises `json.JSONDecodeError`); there is no `GenerationError` class.
A document without a `prompt` key only fails later, with a `KeyError`,
at `content['prompt']` inside `job` — so an absent prompt is not passed
to the image generator, while an empty one is (see the counterexample). -/
theorem generate_ad_copy_behavior :
    (∀ s j, json_loads s = some j → generate_ad_copy s = Except.ok j) ∧
    (∀ s, json_loads s = none →
      generate_ad_copy s = Except.error PyErr.jsonDecodeError) ∧
    (∀ env folder today p kvs,
      generate_ad_copy (env.geminiResponse p) = Except.ok (Json.obj kvs) →
      lookupFirst kvs "prompt" = none →
      (runStep env folder today p).2 = Except.error (PyErr.keyError "prompt") ∧
      ∀ pr, Ev.genImageCall pr ∉ (runStep env folder today p).1) := by
  refine ⟨fun s j h => by simp [generate_ad_copy, h],
          fun s h => by simp [generate_ad_copy, h],
          fun env folder today p kvs hcopy hlook => ?_⟩
  simp [runStep, hcopy, jsonGet, hlook]

/-- Witness for C3's amended theorem: with the backend replying `"{}"`,
the run step fails with `KeyError('prompt')`. -/
theorem generate_ad_copy_behavior_witness :
    (runStep envMissingPrompt none "2026-10-12" testProject).2 =
      Except.error (PyErr.keyError "prompt") :=
  (generate_ad_copy_behavior.2.2 envMissingPrompt none "2026-10-12" testProject [] rfl rfl).1

/-- C8.  The image artifact filename is exactly the product name, an
underscore, the run date and `.png`, where the date renders as ten
characters in `YYYY-MM-DD` shape (digits with dashes at positions 4 and
7); the log filename is exactly `log_`, a fifteen-character
`YYYYMMDD_HHMMSS` stamp (digits with an underscore at position 8), and
`.json`. -/
theorem artifact_filename_formats (p : AdProject) (t : DateTime) :
    image_filename p (fmtYmd t) = p.product_name ++ "_" ++ fmtYmd t ++ ".png" ∧
    (∃ y1 y2 y3 y4 m1 m2 d1 d2 : Char,
      (y1.isDigit = true ∧ y2.isDigit = true ∧ y3.isDigit = true ∧ y4.isDigit = true ∧
       m1.isDigit = true ∧ m2.isDigit = true ∧ d1.isDigit = true ∧ d2.isDigit = true) ∧
      (fmtYmd t).data = [y1, y2, y3, y4, '-', m1, m2, '-', d1, d2]) ∧
    log_filename t =
      "log_" ++ (pad4 t.year ++ pad2 t.month ++ pad2 t.day ++ "_" ++
        pad2 t.hour ++ pad2 t.minute ++ pad2 t.second) ++ ".json" ∧
    (∃ c1 c2 c3 c4 c5 c6 c7 c8 h1 h2 h3 h4 h5 h6 : Char,
      (c1.isDigit = true ∧ c2.isDigit = true ∧ c3.isDigit = true ∧ c4.isDigit = true ∧
       c5.isDigit = true ∧ c6.isDigit = true ∧ c7.isDigit = true ∧ c8.isDigit = true ∧
       h1.isDigit = true ∧ h2.isDigit = true ∧ h3.isDigit = true ∧ h4.isDigit = true ∧
       h5.isDigit = true ∧ h6.isDigit = true) ∧
      (pad4 t.year ++ pad2 t.month ++ pad2 t.day ++ "_" ++
        pad2 t.hour ++ pad2 t.minute ++ pad2 t.second).data =
        [c1, c2, c3, c4, c5, c6, c7, c8, '_', h1, h2, h3, h4, h5, h6]) := by
  refine ⟨rfl,
    ⟨_, _, _, _, _, _, _, _,
      ⟨digitChar_mod_isDigit (t.year / 1000), digitChar_mod_isDigit (t.year / 100),
       digitChar_mod_isDigit (t.year / 10), digitChar_mod_isDigit t.year,
       digitChar_mod_isDigit (t.month / 10), digitChar_mod_isDigit t.month,
       digitChar_mod_isDigit (t.day / 10), digitChar_mod_isDigit t.day⟩, ?_⟩,
    rfl,
    ⟨_, _, _, _, _, _, _, _, _, _, _, _, _, _,
      ⟨digitChar_mod_isDigit (t.year / 1000), digitChar_mod_isDigit (t.year / 100),
       digitChar_mod_isDigit (t.year / 10), digitChar_mod_isDigit t.year,
       digitChar_mod_isDigit (t.month / 10), digitChar_mod_isDigit t.month,
       digitChar_mod_isDigit (t.day / 10), digitChar_mod_isDigit t.day,
       digitChar_mod_isDigit (t.hour / 10), digitChar_mod_isDigit t.hour,
       digitChar_mod_isDigit (t.minute / 10), digitChar_mod_isDigit t.minute,
       digitChar_mod_isDigit (t.second / 10), digitChar_mod_isDigit t.second⟩, ?_⟩⟩
  · simp [fmtYmd, pad4, pad2, String.data_append]
  · simp [pad4, pad2, String.data_append]

/-! ## Orchestrator lemmas -/

/-- The events of one `save_image` call: nothing, one local write, or one
`image/png` upload. -/
lemma save_image_fst_cases (s : Bool) (u : Option PyErr) (d : List Nat) (fn : String)
    (folder : Option String) :
    (save_image s u d fn folder).1 = [] ∨
    (save_image s u d fn folder).1 = [Ev.localWrite fn d] ∨
    (save_image s u d fn folder).1 = [Ev.upload fn folder "image/png" d] := by
  cases s with
  | false =>
    by_cases hf : folder = some "dry-run-folder-id" <;> simp [save_image, hf]
  | true => simp [save_image]

/-- Exhaustive shapes of one per-project step: the trace is the calls in
pipeline order, truncated at the first error. -/
lemma runStep_cases (env : JobEnv) (folder : Option String) (today : String) (p : AdProject) :
    (∃ e, runStep env folder today p =
      ([Ev.genCopyCall p.product_name], Except.error e)) ∨
    (∃ pr e, runStep env folder today p =
      ([Ev.genCopyCall p.product_name, Ev.genImageCall pr], Except.error e)) ∨
    (∃ content pr data res,
      generate_ad_copy (env.geminiResponse p) = Except.ok content ∧
      jsonGet content "prompt" = Except.ok pr ∧
      generate_image (env.imageResponse pr) = Except.ok data ∧
      runStep env folder today p =
        (Ev.genCopyCall p.product_name :: Ev.genImageCall pr ::
          Ev.saveImageCall (image_filename p today) ::
          (save_image env.hasService (env.uploadResult (image_filename p today)) data
            (image_filename p today) folder).1, res) ∧
      ((∃ e, res = Except.error e) ∨
        res = Except.ok { date := today, project := p.product_name, content := content,
                          filename := image_filename p today })) := by
  rcases h1 : generate_ad_copy (env.geminiResponse p) with e | content
  · exact Or.inl ⟨e, by simp [runStep, h1]⟩
  · rcases h2 : jsonGet content "prompt" with e | pr
    · exact Or.inl ⟨e, by simp [runStep, h1, h2]⟩
    · rcases h3 : generate_image (env.imageResponse pr) with e | data
      · exact Or.inr (Or.inl ⟨pr, e, by simp [runStep, h1, h2, h3]⟩)
      · rcases h4 : save_image env.hasService (env.uploadResult (image_filename p today)) data
            (image_filename p today) folder with ⟨evs, r⟩
        rcases r with e | u
        · exact Or.inr (Or.inr ⟨content, pr, data, Except.error e, rfl, h2, h3,
            by simp [runStep, h1, h2, h3, h4], Or.inl ⟨e, rfl⟩⟩)
        · exact Or.inr (Or.inr ⟨content, pr, data, _, rfl, h2, h3,
            by simp [runStep, h1, h2, h3, h4], Or.inr rfl⟩)

/-- A per-project step never invokes `save_log`. -/
lemma runStep_no_saveLogCall (env : JobEnv) (folder : Option String) (today : String)
    (p : AdProject) : Ev.saveLogCall ∉ (runStep env folder today p).1 := by
  rcases runStep_cases env folder today p with ⟨e, h⟩ | ⟨pr, e, h⟩ |
    ⟨content, pr, data, res, _, _, _, h, _⟩ <;> rw [h] <;> simp
  rcases save_image_fst_cases env.hasService (env.uploadResult (image_filename p today)) data
    (image_filename p today) folder with h4 | h4 | h4 <;> rw [h4] <;> simp

/-- A per-project step never uploads anything with MIME type
`application/json` — log bytes are only ever written by `save_log`. -/
lemma runStep_no_json_upload (env : JobEnv) (folder : Option String) (today : String)
    (p : AdProject) (n : String) (par : Option String) (pl : List Nat) :
    Ev.upload n par "application/json" pl ∉ (runStep env folder today p).1 := by
  rcases runStep_cases env folder today p with ⟨e, h⟩ | ⟨pr, e, h⟩ |
    ⟨content, pr, data, res, _, _, _, h, _⟩ <;> rw [h] <;> simp
  rcases save_image_fst_cases env.hasService (env.uploadResult (image_filename p today)) data
    (image_filename p today) folder with h4 | h4 | h4 <;> rw [h4] <;>
    simp [(by decide : ("image/png" : String) = "application/json" ↔ False)]

/-- Error analysis of the per-project loop: the first failing step ends
the run, later projects contribute nothing, and no log is written. -/
lemma runLoop_error_split (env : JobEnv) (folder : Option String) (today : String) :
    ∀ (projects : List AdProject) (e : PyErr),
      (runLoop env folder today projects).2 = Except.error e →
      Ev.saveLogCall ∉ (runLoop env folder today projects).1 ∧
      (∀ n par pl, Ev.upload n par "application/json" pl ∉
        (runLoop env folder today projects).1) ∧
      ∃ pre p post,
        projects = pre ++ p :: post ∧
        (runStep env folder today p).2 = Except.error e ∧
        (∀ q ∈ pre, ∃ entry, (runStep env folder today q).2 = Except.ok entry) ∧
        (runLoop env folder today projects).1 =
          (pre.map fun q => (runStep env folder today q).1).flatten ++
            (runStep env folder today p).1 := by
  intro projects
  induction projects with
  | nil => intro e h; simp [runLoop] at h
  | cons p ps ih =>
    intro e h
    rcases hstep : runStep env folder today p with ⟨evs, r⟩
    rcases r with e1 | entry
    · have hrl : runLoop env folder today (p :: ps) = (evs, Except.error e1) := by
        simp [runLoop, hstep]
      have he : e1 = e := by rw [hrl] at h; simpa using h
      subst he
      rw [hrl]
      refine ⟨?_, ?_, [], p, ps, rfl, by rw [hstep], by simp, by simp [hstep]⟩
      · have h5 := runStep_no_saveLogCall env folder today p
        rw [hstep] at h5; exact h5
      · intro n par pl
        have h5 := runStep_no_json_upload env folder today p n par pl
        rw [hstep] at h5; exact h5
    · rcases hloop : runLoop env folder today ps with ⟨evs2, r2⟩
      rcases r2 with e2 | entries
      · have hrl : runLoop env folder today (p :: ps) = (evs ++ evs2, Except.error e2) := by
          simp [runLoop, hstep, hloop]
        have he : e2 = e := by rw [hrl] at h; simpa using h
        subst he
        obtain ⟨hs1, hs2, pre, q, post, hsplit, herr, hpre, htrace⟩ := ih e2 (by rw [hloop])
        have hs1' : Ev.saveLogCall ∉ evs2 := by rw [hloop] at hs1; exact hs1
        have hs2' : ∀ (n : String) (par : Option String) (pl : List Nat),
            Ev.upload n par "application/json" pl ∉ evs2 := by
          rw [hloop] at hs2; exact hs2
        have htr2 : evs2 =
            (pre.map fun q2 => (runStep env folder today q2).1).flatten ++
              (runStep env folder today q).1 := by
          rw [hloop] at htrace; exact htrace
        rw [hrl]
        refine ⟨?_, ?_, p :: pre, q, post, by simp [hsplit], herr, ?_, ?_⟩
        · show Ev.saveLogCall ∉ evs ++ evs2
          have h5 := runStep_no_saveLogCall env folder today p
          rw [hstep] at h5
          simp only [List.mem_append]
          rintro (hc | hc)
          · exact h5 hc
          · exact hs1' hc
        · intro n par pl
          show Ev.upload n par "application/json" pl ∉ evs ++ evs2
          have h5 := runStep_no_json_upload env folder today p n par pl
          rw [hstep] at h5
          simp only [List.mem_append]
          rintro (hc | hc)
          · exact h5 hc
          · exact hs2' n par pl hc
        · intro q2 hq2
          rcases List.mem_cons.mp hq2 with rfl | hq2
          · exact ⟨entry, by rw [hstep]⟩
          · exact hpre q2 hq2
        · show evs ++ evs2 =
            ((p :: pre).map fun q2 => (runStep env folder today q2).1).flatten ++
              (runStep env folder today q).1
          rw [List.map_cons, List.flatten_cons, hstep, htr2, List.append_assoc]
      · have hrl : (runLoop env folder today (p :: ps)).2 = Except.ok (entry :: entries) := by
          simp [runLoop, hstep, hloop]
        rw [hrl] at h
        simp at h

/-! ## Claim theorems: orchestrator -/

/-- C9.  Each project's steps run in the fixed order copy generation,
image generation, upload, log-entry append (the entry is produced only
after the upload call returns), with no backtracking — the step trace is
always one of the three order-respecting shapes; and when image
generation fails for a project, its trace ends at the image call: zero
storage-upload calls and zero local writes are made for that project. -/
theorem pipeline_step_order (env : JobEnv) (folder : Option String) (today : String)
    (p : AdProject) :
    ((∃ e, runStep env folder today p =
        ([Ev.genCopyCall p.product_name], Except.error e)) ∨
     (∃ pr e, runStep env folder today p =
        ([Ev.genCopyCall p.product_name, Ev.genImageCall pr], Except.error e)) ∨
     (∃ content pr data res,
        generate_ad_copy (env.geminiResponse p) = Except.ok content ∧
        jsonGet content "prompt" = Except.ok pr ∧
        generate_image (env.imageResponse pr) = Except.ok data ∧
        runStep env folder today p =
          (Ev.genCopyCall p.product_name :: Ev.genImageCall pr ::
            Ev.saveImageCall (image_filename p today) ::
            (save_image env.hasService (env.uploadResult (image_filename p today)) data
              (image_filename p today) folder).1, res) ∧
        ((∃ e, res = Except.error e) ∨
          res = Except.ok { date := today, project := p.product_name, content := content,
                            filename := image_filename p today }))) ∧
    (∀ content pr e,
      generate_ad_copy (env.geminiResponse p) = Except.ok content →
      jsonGet content "prompt" = Except.ok pr →
      generate_image (env.imageResponse pr) = Except.error e →
      (runStep env folder today p).2 = Except.error e ∧
      (∀ n par mt pl, Ev.upload n par mt pl ∉ (runStep env folder today p).1) ∧
      (∀ fn d2, Ev.localWrite fn d2 ∉ (runStep env folder today p).1)) := by
  refine ⟨runStep_cases env folder today p, fun content pr e h1 h2 h3 => ?_⟩
  have ht : runStep env folder today p =
      ([Ev.genCopyCall p.product_name, Ev.genImageCall pr], Except.error e) := by
    simp [runStep, h1, h2, h3]
  rw [ht]
  exact ⟨rfl, by simp, by simp⟩

/-- Witness for C9 at the concrete environment whose image backend
returns no inline data. -/
theorem pipeline_step_order_witness :
    (runStep envImgFail none "2026-10-12" testProject).2 =
      Except.error (PyErr.exception "画像が生成されませんでした。") :=
  ((pipeline_step_order envImgFail none "2026-10-12" testProject).2
    (Json.obj [("prompt", Json.str "p")]) (Json.str "p")
    (PyErr.exception "画像が生成されませんでした。") rfl rfl rfl).1

/-- C1.  If any per-project step (copy generation, prompt access, image
generation or upload) raises, the run terminates with that error: the
trace is exactly the successful earlier steps plus the failing step's
prefix, no later project is processed, `save_log` is never invoked and no
log payload is uploaded. -/
theorem run_aborts_on_step_error (env : JobEnv) (projects : List AdProject) (e : PyErr)
    (h : (runLoop env (get_weekly_folder_id env.hasService env.drive_folder_id)
            (fmtYmd env.now) projects).2 = Except.error e) :
    jobRun env projects =
      ((runLoop env (get_weekly_folder_id env.hasService env.drive_folder_id)
          (fmtYmd env.now) projects).1, Except.error e) ∧
    Ev.saveLogCall ∉ (jobRun env projects).1 ∧
    (∀ n par pl, Ev.upload n par "application/json" pl ∉ (jobRun env projects).1) ∧
    ∃ pre p post,
      projects = pre ++ p :: post ∧
      (runStep env (get_weekly_folder_id env.hasService env.drive_folder_id)
          (fmtYmd env.now) p).2 = Except.error e ∧
      (∀ q ∈ pre, ∃ entry,
        (runStep env (get_weekly_folder_id env.hasService env.drive_folder_id)
            (fmtYmd env.now) q).2 = Except.ok entry) ∧
      (runLoop env (get_weekly_folder_id env.hasService env.drive_folder_id)
          (fmtYmd env.now) projects).1 =
        (pre.map fun q => (runStep env (get_weekly_folder_id env.hasService env.drive_folder_id)
            (fmtYmd env.now) q).1).flatten ++
          (runStep env (get_weekly_folder_id env.hasService env.drive_folder_id)
            (fmtYmd env.now) p).1 := by
  obtain ⟨hs1, hs2, split⟩ :=
    runLoop_error_split env (get_weekly_folder_id env.hasService env.drive_folder_id)
      (fmtYmd env.now) projects e h
  have hjob : jobRun env projects =
      ((runLoop env (get_weekly_folder_id env.hasService env.drive_folder_id)
          (fmtYmd env.now) projects).1, Except.error e) := by
    rcases hrl : runLoop env (get_weekly_folder_id env.hasService env.drive_folder_id)
        (fmtYmd env.now) projects with ⟨evs, r⟩
    rw [hrl] at h
    rcases r with e1 | entries
    · cases h; simp [jobRun, hrl]
    · cases h
  refine ⟨hjob, ?_, ?_, split⟩
  · rw [hjob]; exact hs1
  · intro n par pl; rw [hjob]; exact hs2 n par pl

/-- Witness for C1: a run whose first project's copy generation fails
(unparseable backend reply) produces no `save_log` invocation. -/
theorem run_aborts_on_step_error_witness :
    Ev.saveLogCall ∉ (jobRun envBadJson [testProject]).1 :=
  (run_aborts_on_step_error envBadJson [testProject] PyErr.jsonDecodeError rfl).2.1

/-! ## Serializer/parser round trip: basic lemmas -/

lemma mk_data (s : String) : String.mk s.data = s := rfl

lemma sizeJ_pos (j : Json) : 1 ≤ sizeJ j := by
  cases j <;> simp [sizeJ]

lemma sizeL_pos (xs : List Json) : 1 ≤ sizeL xs := by
  cases xs with
  | nil => simp [sizeL]
  | cons x xs2 => simp [sizeL]; omega

lemma sizeKV_pos (kvs : List (String × Json)) : 1 ≤ sizeKV kvs := by
  cases kvs with
  | nil => simp [sizeKV]
  | cons kv kvs2 => simp [sizeKV]; omega

lemma sizeJ_le_sizeL_of_mem {x : Json} {xs : List Json} (h : x ∈ xs) :
    sizeJ x ≤ sizeL xs := by
  induction xs with
  | nil => simp at h
  | cons y ys ih =>
    rcases List.mem_cons.mp h with rfl | h2
    · simp [sizeL]; omega
    · have := ih h2
      simp [sizeL]; omega

lemma sizeJ_le_sizeKV_of_mem {k : String} {v : Json} {kvs : List (String × Json)}
    (h : (k, v) ∈ kvs) : sizeJ v ≤ sizeKV kvs := by
  induction kvs with
  | nil => simp at h
  | cons kv rest ih =>
    rcases List.mem_cons.mp h with heq | h2
    · rw [← heq]; simp [sizeKV]; omega
    · have := ih h2
      simp [sizeKV]; omega

lemma skipWs_ws_cons (c : Char) (t : List Char) (h : isWsChar c = true) :
    skipWs (c :: t) = skipWs t := by
  simp [skipWs, h]

lemma skipWs_not_ws_cons (c : Char) (t : List Char) (h : isWsChar c = false) :
    skipWs (c :: t) = c :: t := by
  simp [skipWs, h]

lemma skipWs_replicate (n : Nat) (t : List Char) :
    skipWs (List.replicate n ' ' ++ t) = skipWs t := by
  induction n with
  | zero => simp
  | succ m ih =>
    rw [List.replicate_succ, List.cons_append, skipWs_ws_cons _ _ (by decide), ih]

lemma skipWs_jind (d : Nat) (t : List Char) : skipWs (jind d ++ t) = skipWs t := by
  rw [jind, skipWs_replicate]

lemma skipWs_skipWs (t : List Char) : skipWs (skipWs t) = skipWs t := by
  induction t with
  | nil => rfl
  | cons c cs ih =>
    by_cases h : isWsChar c = true
    · rw [skipWs_ws_cons _ _ h, ih]
    · rw [skipWs_not_ws_cons _ _ (by revert h; cases isWsChar c <;> simp),
        skipWs_not_ws_cons _ _ (by revert h; cases isWsChar c <;> simp)]

lemma parseVal_skipWs (fuel : Nat) (cs : List Char) :
    parseVal fuel cs = parseVal fuel (skipWs cs) := by
  cases fuel with
  | zero => rfl
  | succ f =>
    simp only [parseVal.eq_def]
    rw [skipWs_skipWs]

lemma printJ_head (d : Nat) (j : Json) :
    ∃ c t, printJ d j = c :: t ∧ isWsChar c = false ∧ c ≠ ']' ∧ c ≠ rbraceChar := by
  cases j with
  | null => exact ⟨'n', ['u', 'l', 'l'], by simp [printJ], by decide, by decide, by decide⟩
  | bool b =>
    cases b with
    | false =>
      exact ⟨'f', ['a', 'l', 's', 'e'], by simp [printJ], by decide, by decide, by decide⟩
    | true => exact ⟨'t', ['r', 'u', 'e'], by simp [printJ], by decide, by decide, by decide⟩
  | str s =>
    exact ⟨quoteChar, escStr s ++ [quoteChar], by simp [printJ, qstr], by decide, by decide,
      by decide⟩
  | arr xs =>
    cases xs with
    | nil => exact ⟨'[', [']'], by simp [printJ], by decide, by decide, by decide⟩
    | cons x xs2 =>
      exact ⟨'[', '\n' :: (jind (d + 1) ++ (printJ (d + 1) x ++ printArrTail d xs2)),
        by simp [printJ], by decide, by decide, by decide⟩
  | obj kvs =>
    cases kvs with
    | nil => exact ⟨lbraceChar, [rbraceChar], by simp [printJ], by decide, by decide, by decide⟩
    | cons kv kvs2 =>
      exact ⟨lbraceChar,
        '\n' :: (jind (d + 1) ++ (qstr kv.1 ++ ':' :: ' ' ::
          (printJ (d + 1) kv.2 ++ printObjTail d kvs2))),
        by simp [printJ], by decide, by decide, by decide⟩

lemma skipWs_printJ_append (d : Nat) (j : Json) (rest : List Char) :
    skipWs (printJ d j ++ rest) = printJ d j ++ rest := by
  obtain ⟨c, t, heq, hws, _, _⟩ := printJ_head d j
  rw [heq, List.cons_append, skipWs_not_ws_cons _ _ hws]

lemma skipWs_qstr_append (k : String) (t : List Char) :
    skipWs (qstr k ++ t) = qstr k ++ t := by
  rw [qstr, List.cons_append, skipWs_not_ws_cons _ _ (by decide)]

lemma skipWs_indent (n : Nat) (t : List Char) :
    skipWs ('\n' :: (jind n ++ t)) = skipWs t := by
  rw [skipWs_ws_cons _ _ (by decide), skipWs_jind]

lemma fromHexDigit_digitChar (n : Nat) (h : n < 16) :
    fromHexDigit (Nat.digitChar n) = some n := by
  interval_cases n <;> decide

/-- One escaped character parses back to itself. -/
lemma parseStrBody_escChar (c : Char) (t : List Char) :
    parseStrBody (escChar c ++ t) =
      (parseStrBody t).map (fun p => (c :: p.1, p.2)) := by
  by_cases h1 : c = quoteChar
  · subst h1
    rcases hp : parseStrBody t with _ | ⟨l, r⟩ <;>
      · rw [show escChar quoteChar = [backslashChar, quoteChar] from by decide,
          List.cons_append, List.cons_append, parseStrBody.eq_def]
        simp +decide [simpleEsc, hp]
  · by_cases h2 : c = backslashChar
    · subst h2
      rcases hp : parseStrBody t with _ | ⟨l, r⟩ <;>
        · rw [show escChar backslashChar = [backslashChar, backslashChar] from by decide,
            List.cons_append, List.cons_append, parseStrBody.eq_def]
          simp +decide [simpleEsc, hp]
    · by_cases h3 : c = '\x08'
      · subst h3
        rcases hp : parseStrBody t with _ | ⟨l, r⟩ <;>
          · rw [show escChar '\x08' = [backslashChar, 'b'] from by decide,
              List.cons_append, List.cons_append, parseStrBody.eq_def]
            simp +decide [simpleEsc, hp]
      · by_cases h4 : c = '\x0c'
        · subst h4
          rcases hp : parseStrBody t with _ | ⟨l, r⟩ <;>
            · rw [show escChar '\x0c' = [backslashChar, 'f'] from by decide,
                List.cons_append, List.cons_append, parseStrBody.eq_def]
              simp +decide [simpleEsc, hp]
        · by_cases h5 : c = '\n'
          · subst h5
            rcases hp : parseStrBody t with _ | ⟨l, r⟩ <;>
              · rw [show escChar '\n' = [backslashChar, 'n'] from by decide,
                  List.cons_append, List.cons_append, parseStrBody.eq_def]
                simp +decide [simpleEsc, hp]
          · by_cases h6 : c = '\x0d'
            · subst h6
              rcases hp : parseStrBody t with _ | ⟨l, r⟩ <;>
                · rw [show escChar '\x0d' = [backslashChar, 'r'] from by decide,
                    List.cons_append, List.cons_append, parseStrBody.eq_def]
                  simp +decide [simpleEsc, hp]
            · by_cases h7 : c = '\t'
              · subst h7
                rcases hp : parseStrBody t with _ | ⟨l, r⟩ <;>
                  · rw [show escChar '\t' = [backslashChar, 't'] from by decide,
                      List.cons_append, List.cons_append, parseStrBody.eq_def]
                    simp +decide [simpleEsc, hp]
              · by_cases h8 : c.toNat < 32
                · have hesc : escChar c = [backslashChar, 'u', '0', '0',
                      Nat.digitChar (c.toNat / 16), Nat.digitChar (c.toNat % 16)] := by
                    simp [escChar, h1, h2, h3, h4, h5, h6, h7, h8]
                  have hfd1 : fromHexDigit (Nat.digitChar (c.toNat / 16)) =
                      some (c.toNat / 16) := fromHexDigit_digitChar _ (by omega)
                  have hfd2 : fromHexDigit (Nat.digitChar (c.toNat % 16)) =
                      some (c.toNat % 16) := fromHexDigit_digitChar _ (by omega)
                  have hOf : Char.ofNat (16 * (c.toNat / 16) + c.toNat % 16) = c := by
                    rw [show 16 * (c.toNat / 16) + c.toNat % 16 = c.toNat from by omega,
                      Char.ofNat_toNat]
                  have hfd0 : fromHexDigit '0' = some 0 := by decide
                  rcases hp : parseStrBody t with _ | ⟨l, r⟩ <;>
                    · rw [hesc, List.cons_append, List.cons_append, List.cons_append,
                        List.cons_append, List.cons_append, List.cons_append,
                        parseStrBody.eq_def]
                      simp +decide [hfd0, hfd1, hfd2, hOf, hp]
                · have hesc : escChar c = [c] := by
                    simp [escChar, h1, h2, h3, h4, h5, h6, h7, h8]
                  rcases hp : parseStrBody t with _ | ⟨l, r⟩ <;>
                    · rw [hesc, List.cons_append, parseStrBody.eq_def]
                      simp [h1, h2, hp]

/-- An escaped string body followed by the closing quote parses back. -/
lemma parseStrBody_escStr (l : List Char) (rest : List Char) :
    parseStrBody ((l.map escChar).flatten ++ (quoteChar :: rest)) = some (l, rest) := by
  induction l with
  | nil =>
    rw [List.map_nil, List.flatten_nil, List.nil_append, parseStrBody.eq_def]
    simp +decide
  | cons c l2 ih =>
    rw [List.map_cons, List.flatten_cons, List.append_assoc, parseStrBody_escChar, ih]
    rfl

/-! ## Serializer/parser round trip: one value, by constructor -/

lemma parseVal_null (f d : Nat) (rest : List Char) :
    parseVal (f + 1) (printJ d Json.null ++ rest) = some (Json.null, rest) := by
  rw [show printJ d Json.null = ['n', 'u', 'l', 'l'] from by simp [printJ]]
  simp +decide [parseVal.eq_def, skipWs]

lemma parseVal_true (f d : Nat) (rest : List Char) :
    parseVal (f + 1) (printJ d (Json.bool true) ++ rest) = some (Json.bool true, rest) := by
  rw [show printJ d (Json.bool true) = ['t', 'r', 'u', 'e'] from by simp [printJ]]
  simp +decide [parseVal.eq_def, skipWs]

lemma parseVal_false (f d : Nat) (rest : List Char) :
    parseVal (f + 1) (printJ d (Json.bool false) ++ rest) = some (Json.bool false, rest) := by
  rw [show printJ d (Json.bool false) = ['f', 'a', 'l', 's', 'e'] from by simp [printJ]]
  simp +decide [parseVal.eq_def, skipWs]

lemma parseVal_str (f d : Nat) (s : String) (rest : List Char) :
    parseVal (f + 1) (printJ d (Json.str s) ++ rest) = some (Json.str s, rest) := by
  rw [show printJ d (Json.str s) = quoteChar :: (escStr s ++ [quoteChar]) from by
    simp [printJ, qstr]]
  rw [List.cons_append, List.append_assoc,
    show [quoteChar] ++ rest = quoteChar :: rest from rfl]
  simp only [parseVal.eq_def]
  rw [skipWs_not_ws_cons _ _ (by decide)]
  simp +decide [escStr, parseStrBody_escStr, mk_data]

lemma parseVal_arr_nil (f d : Nat) (rest : List Char) :
    parseVal (f + 1) (printJ d (Json.arr []) ++ rest) = some (Json.arr [], rest) := by
  rw [show printJ d (Json.arr []) = ['[', ']'] from by simp [printJ]]
  simp +decide [parseVal.eq_def, skipWs]

lemma parseVal_obj_nil (f d : Nat) (rest : List Char) :
    parseVal (f + 1) (printJ d (Json.obj []) ++ rest) = some (Json.obj [], rest) := by
  rw [show printJ d (Json.obj []) = [lbraceChar, rbraceChar] from by simp [printJ]]
  simp +decide [parseVal.eq_def, skipWs]

lemma parseVal_arr_cons (f d : Nat) (rest : List Char) (x : Json) (xs2 : List Json)
    (hitems : parseArrItems f (printJ (d + 1) x ++ (printArrTail d xs2 ++ rest)) =
      some (x :: xs2, rest)) :
    parseVal (f + 1) (printJ d (Json.arr (x :: xs2)) ++ rest) =
      some (Json.arr (x :: xs2), rest) := by
  rw [show printJ d (Json.arr (x :: xs2)) =
      '[' :: ('\n' :: (jind (d + 1) ++ (printJ (d + 1) x ++ printArrTail d xs2))) from by
    simp [printJ]]
  rw [List.cons_append, List.cons_append, List.append_assoc, List.append_assoc]
  simp only [parseVal.eq_def]
  rw [skipWs_not_ws_cons _ _ (by decide)]
  have hw : skipWs ('\n' :: (jind (d + 1) ++ (printJ (d + 1) x ++ (printArrTail d xs2 ++ rest)))) =
      printJ (d + 1) x ++ (printArrTail d xs2 ++ rest) := by
    rw [skipWs_indent, skipWs_printJ_append]
  obtain ⟨c0, t0, heq, _, hne, _⟩ := printJ_head (d + 1) x
  rw [heq, List.cons_append] at hitems
  simp +decide
  rw [hw, heq, List.cons_append]
  simp +decide [hne, hitems]

lemma parseVal_obj_cons (f d : Nat) (rest : List Char) (kv : String × Json)
    (kvs2 : List (String × Json))
    (hitems : parseObjItems f (qstr kv.1 ++ (':' :: ' ' ::
        (printJ (d + 1) kv.2 ++ (printObjTail d kvs2 ++ rest)))) =
      some (kv :: kvs2, rest)) :
    parseVal (f + 1) (printJ d (Json.obj (kv :: kvs2)) ++ rest) =
      some (Json.obj (kv :: kvs2), rest) := by
  rw [show printJ d (Json.obj (kv :: kvs2)) =
      lbraceChar :: ('\n' :: (jind (d + 1) ++ (qstr kv.1 ++ ':' :: ' ' ::
        (printJ (d + 1) kv.2 ++ printObjTail d kvs2)))) from by
    simp [printJ]]
  rw [List.cons_append, List.cons_append, List.append_assoc, List.append_assoc,
    List.cons_append, List.cons_append, List.append_assoc]
  simp only [parseVal.eq_def]
  rw [skipWs_not_ws_cons _ _ (by decide)]
  have hw : skipWs ('\n' :: (jind (d + 1) ++ (qstr kv.1 ++ ':' :: ' ' ::
      (printJ (d + 1) kv.2 ++ (printObjTail d kvs2 ++ rest))))) =
      qstr kv.1 ++ ':' :: ' ' :: (printJ (d + 1) kv.2 ++ (printObjTail d kvs2 ++ rest)) := by
    rw [skipWs_indent, skipWs_qstr_append]
  have hq : qstr kv.1 ++ ':' :: ' ' :: (printJ (d + 1) kv.2 ++ (printObjTail d kvs2 ++ rest)) =
      quoteChar :: (escStr kv.1 ++ quoteChar :: ':' :: ' ' ::
        (printJ (d + 1) kv.2 ++ (printObjTail d kvs2 ++ rest))) := by
    simp [qstr]
  rw [hq] at hitems
  simp +decide
  rw [hw, hq]
  simp +decide [hitems]

/-! ## Serializer/parser round trip: item lists -/

lemma parseArrItems_succ (f : Nat) (cs : List Char) :
    parseArrItems (f + 1) cs =
      match parseVal f cs with
      | none => none
      | some (v, r) =>
        match skipWs r with
        | ',' :: r2 =>
          match parseArrItems f r2 with
          | some (vs, r3) => some (v :: vs, r3)
          | none => none
        | ']' :: r2 => some ([v], r2)
        | _ => none := by
  rw [parseArrItems.eq_def]

lemma parseObjItems_succ (f : Nat) (cs : List Char) :
    parseObjItems (f + 1) cs =
      match skipWs cs with
      | [] => none
      | c :: cs1 =>
        if c = quoteChar then
          match parseStrBody cs1 with
          | some (k, r) =>
            match skipWs r with
            | ':' :: r2 =>
              match parseVal f r2 with
              | some (v, r3) =>
                match skipWs r3 with
                | ',' :: r4 =>
                  match parseObjItems f r4 with
                  | some (kvs, r5) => some ((String.mk k, v) :: kvs, r5)
                  | none => none
                | d :: r4 => if d = rbraceChar then some ([(String.mk k, v)], r4) else none
                | [] => none
              | none => none
            | _ => none
          | none => none
        else none := by
  rw [parseObjItems.eq_def]

lemma parseArrItems_rt :
    ∀ (xs : List Json) (x : Json),
      (∀ fuel d rest, sizeJ x ≤ fuel → parseVal fuel (printJ d x ++ rest) = some (x, rest)) →
      (∀ y ∈ xs, ∀ fuel d rest, sizeJ y ≤ fuel →
        parseVal fuel (printJ d y ++ rest) = some (y, rest)) →
      ∀ (fuel d : Nat) (rest cs : List Char),
        skipWs cs = printJ (d + 1) x ++ (printArrTail d xs ++ rest) →
        sizeJ x + sizeL xs ≤ fuel →
        parseArrItems fuel cs = some (x :: xs, rest) := by
  intro xs
  induction xs with
  | nil =>
    intro x hx _ fuel d rest cs hcs hfuel
    have hs0 : sizeL ([] : List Json) = 1 := by simp [sizeL]
    obtain ⟨f, rfl⟩ : ∃ f, fuel = f + 1 := ⟨fuel - 1, by have := sizeJ_pos x; omega⟩
    have hv : parseVal f cs = some (x, printArrTail d [] ++ rest) := by
      rw [parseVal_skipWs, hcs]
      exact hx f (d + 1) _ (by omega)
    have hskip : skipWs (printArrTail d [] ++ rest) = ']' :: rest := by
      rw [show printArrTail d [] = '\n' :: (jind d ++ [']']) from by simp [printArrTail]]
      rw [List.cons_append, List.append_assoc, skipWs_indent,
        show [']'] ++ rest = ']' :: rest from rfl, skipWs_not_ws_cons _ _ (by decide)]
    rw [parseArrItems_succ, hv]
    simp [hskip]
  | cons y ys ih =>
    intro x hx hmem fuel d rest cs hcs hfuel
    have hsy : sizeL (y :: ys) = 1 + sizeJ y + sizeL ys := by simp [sizeL]
    obtain ⟨f, rfl⟩ : ∃ f, fuel = f + 1 := ⟨fuel - 1, by have := sizeJ_pos x; omega⟩
    have hv : parseVal f cs = some (x, printArrTail d (y :: ys) ++ rest) := by
      rw [parseVal_skipWs, hcs]
      exact hx f (d + 1) _ (by have := sizeL_pos (y :: ys); omega)
    have hskip : skipWs (printArrTail d (y :: ys) ++ rest) =
        ',' :: (('\n' :: (jind (d + 1) ++ (printJ (d + 1) y ++ printArrTail d ys))) ++ rest) := by
      rw [show printArrTail d (y :: ys) =
          ',' :: ('\n' :: (jind (d + 1) ++ (printJ (d + 1) y ++ printArrTail d ys))) from by
        simp [printArrTail]]
      rw [List.cons_append, skipWs_not_ws_cons _ _ (by decide)]
    have hrec : parseArrItems f
        ('\n' :: (jind (d + 1) ++ (printJ (d + 1) y ++ (printArrTail d ys ++ rest)))) =
        some (y :: ys, rest) := by
      apply ih y (hmem y (by simp)) (fun z hz => hmem z (by simp [hz]))
      · rw [skipWs_indent, skipWs_printJ_append]
      · have := sizeJ_pos x
        omega
    rw [parseArrItems_succ, hv]
    simp +decide [hskip, hrec]

lemma parseObjItems_rt :
    ∀ (kvs : List (String × Json)) (k : String) (v : Json),
      (∀ fuel d rest, sizeJ v ≤ fuel → parseVal fuel (printJ d v ++ rest) = some (v, rest)) →
      (∀ kv ∈ kvs, ∀ fuel d rest, sizeJ kv.2 ≤ fuel →
        parseVal fuel (printJ d kv.2 ++ rest) = some (kv.2, rest)) →
      ∀ (fuel d : Nat) (rest cs : List Char),
        skipWs cs = qstr k ++ (':' :: ' ' ::
          (printJ (d + 1) v ++ (printObjTail d kvs ++ rest))) →
        sizeJ v + sizeKV kvs ≤ fuel →
        parseObjItems fuel cs = some ((k, v) :: kvs, rest) := by
  intro kvs
  induction kvs with
  | nil =>
    intro k v hv _ fuel d rest cs hcs hfuel
    have hs0 : sizeKV ([] : List (String × Json)) = 1 := by simp [sizeKV]
    obtain ⟨f, rfl⟩ : ∃ f, fuel = f + 1 := ⟨fuel - 1, by have := sizeJ_pos v; omega⟩
    rw [show qstr k ++ (':' :: ' ' :: (printJ (d + 1) v ++ (printObjTail d [] ++ rest))) =
        quoteChar :: (escStr k ++ (quoteChar :: (':' :: ' ' ::
          (printJ (d + 1) v ++ (printObjTail d [] ++ rest))))) from by simp [qstr]] at hcs
    have hval : parseVal f (' ' :: (printJ (d + 1) v ++ (printObjTail d [] ++ rest))) =
        some (v, printObjTail d [] ++ rest) := by
      rw [parseVal_skipWs, skipWs_ws_cons _ _ (by decide), skipWs_printJ_append]
      exact hv f (d + 1) _ (by omega)
    have hskip : skipWs (printObjTail d [] ++ rest) = rbraceChar :: rest := by
      rw [show printObjTail d [] = '\n' :: (jind d ++ [rbraceChar]) from by simp [printObjTail]]
      rw [List.cons_append, List.append_assoc, skipWs_indent,
        show [rbraceChar] ++ rest = rbraceChar :: rest from rfl,
        skipWs_not_ws_cons _ _ (by decide)]
    rw [parseObjItems_succ, hcs]
    simp +decide [escStr, parseStrBody_escStr, hval, hskip, mk_data, rbraceChar,
      skipWs_not_ws_cons _ _ (by decide : isWsChar ':' = false)]
  | cons kv2 kvs2 ih =>
    intro k v hv hmem fuel d rest cs hcs hfuel
    have hsy : sizeKV (kv2 :: kvs2) = 1 + sizeJ kv2.2 + sizeKV kvs2 := by simp [sizeKV]
    obtain ⟨f, rfl⟩ : ∃ f, fuel = f + 1 := ⟨fuel - 1, by have := sizeJ_pos v; omega⟩
    rw [show qstr k ++ (':' :: ' ' ::
        (printJ (d + 1) v ++ (printObjTail d (kv2 :: kvs2) ++ rest))) =
        quoteChar :: (escStr k ++ (quoteChar :: (':' :: ' ' ::
          (printJ (d + 1) v ++ (printObjTail d (kv2 :: kvs2) ++ rest))))) from by
      simp [qstr]] at hcs
    have hval : parseVal f
        (' ' :: (printJ (d + 1) v ++ (printObjTail d (kv2 :: kvs2) ++ rest))) =
        some (v, printObjTail d (kv2 :: kvs2) ++ rest) := by
      rw [parseVal_skipWs, skipWs_ws_cons _ _ (by decide), skipWs_printJ_append]
      exact hv f (d + 1) _ (by have := sizeKV_pos (kv2 :: kvs2); omega)
    have hskip : skipWs (printObjTail d (kv2 :: kvs2) ++ rest) =
        ',' :: (('\n' :: (jind (d + 1) ++ (qstr kv2.1 ++ ':' :: ' ' ::
          (printJ (d + 1) kv2.2 ++ printObjTail d kvs2)))) ++ rest) := by
      rw [show printObjTail d (kv2 :: kvs2) =
          ',' :: ('\n' :: (jind (d + 1) ++ (qstr kv2.1 ++ ':' :: ' ' ::
            (printJ (d + 1) kv2.2 ++ printObjTail d kvs2)))) from by simp [printObjTail]]
      rw [List.cons_append, skipWs_not_ws_cons _ _ (by decide)]
    have hrec : parseObjItems f
        ('\n' :: (jind (d + 1) ++ (qstr kv2.1 ++ ':' :: ' ' ::
          (printJ (d + 1) kv2.2 ++ (printObjTail d kvs2 ++ rest))))) =
        some (kv2 :: kvs2, rest) := by
      apply ih kv2.1 kv2.2 (hmem kv2 (by simp)) (fun z hz => hmem z (by simp [hz]))
      · rw [skipWs_indent, skipWs_qstr_append]
      · have := sizeJ_pos v
        omega
    rw [parseObjItems_succ, hcs]
    simp +decide [escStr, parseStrBody_escStr, hval, hskip, hrec, mk_data, rbraceChar,
      skipWs_not_ws_cons _ _ (by decide : isWsChar ':' = false)]

/-! ## Serializer/parser round trip: every document -/

lemma parseVal_printJ :
    ∀ (n : Nat) (j : Json), sizeJ j ≤ n →
      ∀ (fuel d : Nat) (rest : List Char), sizeJ j ≤ fuel →
        parseVal fuel (printJ d j ++ rest) = some (j, rest) := by
  intro n
  induction n with
  | zero =>
    intro j h
    have := sizeJ_pos j
    omega
  | succ n ih =>
    intro j hn fuel d rest hf
    obtain ⟨f, rfl⟩ : ∃ f, fuel = f + 1 := ⟨fuel - 1, by have := sizeJ_pos j; omega⟩
    cases j with
    | null => exact parseVal_null f d rest
    | bool b =>
      cases b with
      | false => exact parseVal_false f d rest
      | true => exact parseVal_true f d rest
    | str s => exact parseVal_str f d s rest
    | arr xs =>
      cases xs with
      | nil => exact parseVal_arr_nil f d rest
      | cons x xs2 =>
        have hsz : sizeJ (Json.arr (x :: xs2)) = 1 + (1 + sizeJ x + sizeL xs2) := by
          simp [sizeJ, sizeL]
        apply parseVal_arr_cons
        apply parseArrItems_rt xs2 x
        · intro fuel2 d2 rest2 hf2
          exact ih x (by omega) fuel2 d2 rest2 hf2
        · intro y hy fuel2 d2 rest2 hf2
          have := sizeJ_le_sizeL_of_mem hy
          exact ih y (by omega) fuel2 d2 rest2 hf2
        · exact skipWs_printJ_append (d + 1) x _
        · omega
    | obj kvs =>
      cases kvs with
      | nil => exact parseVal_obj_nil f d rest
      | cons kv kvs2 =>
        have hsz : sizeJ (Json.obj (kv :: kvs2)) = 1 + (1 + sizeJ kv.2 + sizeKV kvs2) := by
          simp [sizeJ, sizeKV]
        apply parseVal_obj_cons
        apply parseObjItems_rt kvs2 kv.1 kv.2
        · intro fuel2 d2 rest2 hf2
          exact ih kv.2 (by omega) fuel2 d2 rest2 hf2
        · intro kv3 hkv3 fuel2 d2 rest2 hf2
          have : sizeJ kv3.2 ≤ sizeKV kvs2 := by
            rcases kv3 with ⟨k3, v3⟩
            exact sizeJ_le_sizeKV_of_mem hkv3
          exact ih kv3.2 (by omega) fuel2 d2 rest2 hf2
        · exact skipWs_qstr_append kv.1 _
        · omega


/-! ## Serializer/parser round trip: length bound and top level -/

lemma printArrTail_length :
    ∀ (xs : List Json), (∀ y ∈ xs, ∀ d : Nat, sizeJ y ≤ (printJ d y).length) →
      ∀ d : Nat, sizeL xs ≤ (printArrTail d xs).length := by
  intro xs
  induction xs with
  | nil =>
    intro _ d
    simp only [printArrTail, sizeL, List.length_cons, List.length_append, jind,
      List.length_replicate]
    omega
  | cons y ys ih =>
    intro h d
    have hy := h y (by simp) (d + 1)
    have ht := ih (fun z hz => h z (by simp [hz])) d
    simp only [printArrTail, sizeL, List.length_cons, List.length_append, jind,
      List.length_replicate]
    omega

lemma printObjTail_length :
    ∀ (kvs : List (String × Json)),
      (∀ kv ∈ kvs, ∀ d : Nat, sizeJ kv.2 ≤ (printJ d kv.2).length) →
      ∀ d : Nat, sizeKV kvs ≤ (printObjTail d kvs).length := by
  intro kvs
  induction kvs with
  | nil =>
    intro _ d
    simp only [printObjTail, sizeKV, List.length_cons, List.length_append, jind,
      List.length_replicate]
    omega
  | cons kv kvs2 ih =>
    intro h d
    have hy := h kv (by simp) (d + 1)
    have ht := ih (fun z hz => h z (by simp [hz])) d
    simp only [printObjTail, sizeKV, List.length_cons, List.length_append, jind,
      List.length_replicate]
    omega

lemma printJ_length :
    ∀ (n : Nat) (j : Json), sizeJ j ≤ n → ∀ d : Nat, sizeJ j ≤ (printJ d j).length := by
  intro n
  induction n with
  | zero =>
    intro j h
    have := sizeJ_pos j
    omega
  | succ n ih =>
    intro j hn d
    cases j with
    | null => simp [printJ, sizeJ]
    | bool b => cases b <;> simp [printJ, sizeJ]
    | str s =>
      simp only [printJ, qstr, sizeJ, List.length_cons, List.length_append]
      omega
    | arr xs =>
      cases xs with
      | nil => simp [printJ, sizeJ, sizeL]
      | cons x xs2 =>
        have h1 : sizeL (x :: xs2) = 1 + sizeJ x + sizeL xs2 := by simp [sizeL]
        have hxn : sizeJ x ≤ n := by
          have := sizeL_pos xs2
          simp only [sizeJ, h1] at hn
          omega
        have hx := ih x hxn (d + 1)
        have ht := printArrTail_length xs2
          (fun y hy d2 => ih y (by
            have := sizeJ_le_sizeL_of_mem hy
            simp only [sizeJ, h1] at hn
            have := sizeJ_pos x
            omega) d2) d
        simp only [printJ, sizeJ, sizeL, List.length_cons, List.length_append, jind,
          List.length_replicate]
        omega
    | obj kvs =>
      cases kvs with
      | nil => simp [printJ, sizeJ, sizeKV]
      | cons kv kvs2 =>
        have h1 : sizeKV (kv :: kvs2) = 1 + sizeJ kv.2 + sizeKV kvs2 := by simp [sizeKV]
        have hxn : sizeJ kv.2 ≤ n := by
          have := sizeKV_pos kvs2
          simp only [sizeJ, h1] at hn
          omega
        have hx := ih kv.2 hxn (d + 1)
        have ht := printObjTail_length kvs2
          (fun z hz d2 => ih z.2 (by
            have : sizeJ z.2 ≤ sizeKV kvs2 := by
              rcases z with ⟨zk, zv⟩
              exact sizeJ_le_sizeKV_of_mem hz
            simp only [sizeJ, h1] at hn
            have := sizeJ_pos kv.2
            omega) d2) d
        simp only [printJ, sizeJ, sizeKV, List.length_cons, List.length_append, jind,
          List.length_replicate]
        omega

/-- `json.loads` inverts `json.dumps(..., indent=2, ensure_ascii=False)`
on every document. -/
lemma json_loads_dumps (j : Json) : json_loads (json_dumps j) = some j := by
  have hlen : sizeJ j ≤ (printJ 0 j).length + 1 := by
    have := printJ_length (sizeJ j) j le_rfl 0
    omega
  have h := parseVal_printJ (sizeJ j) j le_rfl ((printJ 0 j).length + 1) 0 [] hlen
  rw [List.append_nil] at h
  have hd : (json_dumps j).data = printJ 0 j := rfl
  simp [json_loads, hd, h, skipWs]

lemma decodeEntry_logEntryJson (e : LogEntry) : decodeEntry (logEntryJson e) = some e := by
  cases e
  rfl

lemma decodeEntries_map (logs : List LogEntry) :
    decodeEntries (logs.map logEntryJson) = some logs := by
  induction logs with
  | nil => rfl
  | cons e es ih => simp [decodeEntries, decodeEntry_logEntryJson, ih]

/-! ## Claim theorem: run-log round trip -/

/-- C7.  A Run Log Entry sequence serialized by `save_log`
(`json.dumps(log_data, indent=2, ensure_ascii=False)`) and parsed back as
JSON reproduces exactly the same sequence of
{date, project, content, filename} tuples; and every character from
U+0020 upwards other than the quote and the backslash — all non-Latin
text in particular — is emitted verbatim, never escaped. -/
theorem store_log_roundtrip :
    (∀ logs : List LogEntry, parse_log_entries (save_log_bytes logs) = some logs) ∧
    (∀ c : Char, 32 ≤ c.toNat → c ≠ quoteChar → c ≠ backslashChar → escChar c = [c]) := by
  constructor
  · intro logs
    rw [parse_log_entries, save_log_bytes, json_loads_dumps]
    simp [decodeLogs, decodeEntries_map]
  · intro c h1 h2 h3
    have h4 : ¬ c = '\x08' := fun h => absurd h1 (by subst h; decide)
    have h5 : ¬ c = '\x0c' := fun h => absurd h1 (by subst h; decide)
    have h6 : ¬ c = '\n' := fun h => absurd h1 (by subst h; decide)
    have h7 : ¬ c = '\x0d' := fun h => absurd h1 (by subst h; decide)
    have h8 : ¬ c = '\t' := fun h => absurd h1 (by subst h; decide)
    have h9 : ¬ (c.toNat < 32) := by omega
    simp [escChar, h2, h3, h4, h5, h6, h7, h8, h9]

/-- Witness for C7 at a concrete one-entry log with non-Latin text, and
at the concrete non-ASCII character あ. -/
theorem store_log_roundtrip_witness :
    parse_log_entries (save_log_bytes [testEntry]) = some [testEntry] ∧
    escChar 'あ' = ['あ'] :=
  ⟨store_log_roundtrip.1 [testEntry],
   store_log_roundtrip.2 'あ' (by decide) (by decide) (by decide)⟩

end AdGen
